import Mathlib

/-!
Verification of pymc3/distributions/continuous.py against its specification.

Shallow embedding conventions:
* Scalars are modelled as rationals.  The transcendental operations that the
  source delegates to the symbolic tensor engine (log, gammaln, the float
  power x ** -0.5, and the constant pi) are modelled as fields of an abstract
  capability record SymCap, mirroring the external "symbolic expression
  capability" of the design.  All claims settled here depend only on the
  structure of the expressions, never on analytic facts about log or gamma.
* A guarded log-density value is either a finite scalar or the negative
  sentinel (the -inf produced both by the guard switch and by logpow at 0).
* Fallible construction-time resolvers return Except String, with the error
  message of the ValueError raised by the source.
-/

/-- Value of a (guarded) log-density expression: the large-magnitude negative
sentinel -inf, or a finite scalar. -/
inductive LVal where
  | negInf : LVal
  | fin : ℚ → LVal
deriving DecidableEq, Repr

/-- Addition on log-density values: the sentinel absorbs, as -inf does in
floating point whenever the other operand is finite or -inf. -/
def LVal.add : LVal → LVal → LVal
  | .fin a, .fin b => .fin (a + b)
  | _, _ => .negInf

instance : Add LVal := ⟨LVal.add⟩

/-- Subtracting a finite scalar from a log-density value, as in the term
"... - beta * value + ..." of Gamma.logp; -inf minus a finite scalar
stays -inf. -/
def LVal.subFin : LVal → ℚ → LVal
  | .fin a, q => .fin (a - q)
  | .negInf, _ => .negInf

instance : HSub LVal ℚ LVal := ⟨LVal.subFin⟩

/-- External symbolic scalar capability: the operations the source takes from
theano/numpy (tt.log, gammaln, the float power x ** -0.5, np.pi), left
abstract because no claim needs analytic facts about them. -/
structure SymCap where
  log : ℚ → ℚ
  gammaln : ℚ → ℚ
  pi : ℚ
  powNegHalf : ℚ → ℚ

/-- A trivial concrete capability, used to instantiate universally quantified
statements at concrete inputs. -/
def capZero : SymCap := ⟨fun _ => 0, fun _ => 0, 0, fun _ => 0⟩

/-- dist_math.bound: switch(alltrue(conditions), logp, -inf).  The varargs
conditions of the source are combined into one conjunction. -/
def bound (e : LVal) (c : Prop) [Decidable c] : LVal :=
  if c then e else .negInf

/-- dist_math.logpow: switch(eq(x, 0), -inf, m * log(x)). -/
def logpow (cap : SymCap) (x m : ℚ) : LVal :=
  if x = 0 then .negInf else .fin (m * cap.log x)

/-- Normal.logp: bound((-tau * (value - mu)**2 + log(tau / pi / 2)) / 2,
tau > 0, sd > 0). -/
def Normal.logp (cap : SymCap) (mu tau sd value : ℚ) : LVal :=
  bound (.fin ((-tau * (value - mu) ^ 2 + cap.log (tau / cap.pi / 2)) / 2))
    (0 < tau ∧ 0 < sd)

/-- Laplace.logp: -log(2 * b) - abs(value - mu) / b, returned directly with
no bound wrapper. -/
def Laplace.logp (cap : SymCap) (mu b value : ℚ) : LVal :=
  .fin (-(cap.log (2 * b)) - |value - mu| / b)

/-- C1 counterexample: the claim says every logp, Laplace included, is wrapped
by bound so that out-of-range parameters yield the sentinel; but at the
out-of-range scale b = -1 (the constraint would be b > 0), Laplace.logp
returns a finite value, not the sentinel. -/
theorem laplace_logp_not_sentinel_concrete :
    Laplace.logp capZero 0 (-1) 1 ≠ LVal.negInf := by
  decide

/-- C1 amended: Normal.logp is the formula wrapped by bound with tau > 0 and
sd > 0, yielding the sentinel exactly off those constraints, but Laplace.logp
is the bare formula with no NumericGuard, so it never yields the sentinel. -/
theorem normal_guarded_laplace_unguarded (cap : SymCap)
    (mu tau sd b value : ℚ) :
    ((0 < tau ∧ 0 < sd) → Normal.logp cap mu tau sd value =
      .fin ((-tau * (value - mu) ^ 2 + cap.log (tau / cap.pi / 2)) / 2)) ∧
    (¬(0 < tau ∧ 0 < sd) → Normal.logp cap mu tau sd value = .negInf) ∧
    Laplace.logp cap mu b value =
      .fin (-(cap.log (2 * b)) - |value - mu| / b) := by
  refine ⟨fun h => ?_, fun h => ?_, rfl⟩
  · simp [Normal.logp, bound, h]
  · simp [Normal.logp, bound, h]

/-- C1 amended, witnessed at concrete inputs: in-range parameters give the
formula, out-of-range parameters give the sentinel. -/
theorem normal_guarded_laplace_unguarded_witness :
    Normal.logp capZero 0 1 1 0 =
      .fin ((-1 * ((0 : ℚ) - 0) ^ 2 + capZero.log (1 / capZero.pi / 2)) / 2) ∧
    Normal.logp capZero 0 (-1) 1 0 = .negInf :=
  ⟨(normal_guarded_laplace_unguarded capZero 0 1 1 0 0).1 (by norm_num),
   (normal_guarded_laplace_unguarded capZero 0 (-1) 1 0 0).2.1 (by norm_num)⟩

/-- Whether an Except value is the error case. -/
def isError {α : Type} : Except String α → Bool
  | .error _ => true
  | .ok _ => false

/-- Beta.get_alpha_beta: if alpha and beta are both given they are used as
they are; otherwise, if mu and sd are both given, kappa = mu*(1-mu)/sd**2 - 1,
alpha = mu*kappa, beta = (1-mu)*kappa; otherwise a ValueError is raised. -/
def Beta.get_alpha_beta (alpha beta mu sd : Option ℚ) :
    Except String (ℚ × ℚ) :=
  match alpha, beta with
  | some a, some b => .ok (a, b)
  | _, _ =>
    match mu, sd with
    | some m, some s =>
      let kappa := m * (1 - m) / s ^ 2 - 1
      .ok (m * kappa, (1 - m) * kappa)
    | _, _ => .error ("Incompatible parameterization. Either use alpha " ++
        "and beta, or mu and sd to specify distribution.")

/-- Gamma.get_alpha_beta: if alpha and beta are both given they are used as
they are; otherwise, if mu and sd are both given, alpha = mu**2 / sd**2 and
beta = mu / sd**2; otherwise a ValueError is raised. -/
def Gamma.get_alpha_beta (alpha beta mu sd : Option ℚ) :
    Except String (ℚ × ℚ) :=
  match alpha, beta with
  | some a, some b => .ok (a, b)
  | _, _ =>
    match mu, sd with
    | some m, some s => .ok (m ^ 2 / s ^ 2, m / s ^ 2)
    | _, _ => .error ("Incompatible parameterization. Either use " ++
        "alpha and beta, or mu and sd to specify distribution.")

/-- C2 counterexample: supplying all of alpha, beta, mu and sd (two fully
specified groups) does not raise; both resolvers silently keep (alpha, beta).
The claim says this over-specified call must fail. -/
theorem overspecified_groups_accepted :
    Beta.get_alpha_beta (some 2) (some 3) (some (1/2)) (some (1/10)) =
      .ok (2, 3) ∧
    Gamma.get_alpha_beta (some 2) (some 3) (some 1) (some 1) = .ok (2, 3) :=
  ⟨rfl, rfl⟩

/-- C2 amended: zero complete groups is a construction-time error, but when
the group {alpha, beta} is complete it is used as given, silently, even if
{mu, sd} is also fully specified; {mu, sd} is consulted only when
{alpha, beta} is incomplete. -/
theorem get_alpha_beta_resolution (a b m s : ℚ) (oa ob om os : Option ℚ) :
    Beta.get_alpha_beta (some a) (some b) om os = .ok (a, b) ∧
    Gamma.get_alpha_beta (some a) (some b) om os = .ok (a, b) ∧
    (¬(oa.isSome = true ∧ ob.isSome = true) →
      Beta.get_alpha_beta oa ob (some m) (some s) =
        .ok (m * (m * (1 - m) / s ^ 2 - 1),
             (1 - m) * (m * (1 - m) / s ^ 2 - 1))) ∧
    (¬(oa.isSome = true ∧ ob.isSome = true) →
      Gamma.get_alpha_beta oa ob (some m) (some s) =
        .ok (m ^ 2 / s ^ 2, m / s ^ 2)) ∧
    (¬(oa.isSome = true ∧ ob.isSome = true) →
      ¬(om.isSome = true ∧ os.isSome = true) →
      isError (Beta.get_alpha_beta oa ob om os) = true ∧
      isError (Gamma.get_alpha_beta oa ob om os) = true) := by
  refine ⟨rfl, rfl, fun h => ?_, fun h => ?_, fun h h' => ?_⟩ <;>
    cases oa <;> cases ob <;> cases om <;> cases os <;>
      simp_all [Beta.get_alpha_beta, Gamma.get_alpha_beta, isError]

/-- C2 amended, witnessed: an incomplete {alpha, beta} group with {mu, sd}
given resolves through the mu/sd formulas, and supplying nothing errors. -/
theorem get_alpha_beta_resolution_witness :
    Beta.get_alpha_beta none (some 5) (some (1/2)) (some (1/10)) =
      .ok ((1:ℚ)/2 * ((1:ℚ)/2 * (1 - 1/2) / (1/10 : ℚ) ^ 2 - 1),
           (1 - (1:ℚ)/2) * ((1:ℚ)/2 * (1 - 1/2) / (1/10 : ℚ) ^ 2 - 1)) ∧
    isError (Gamma.get_alpha_beta none none none none) = true :=
  ⟨(get_alpha_beta_resolution 0 0 (1/2) (1/10) none (some 5) none none).2.2.1
      (by simp),
   ((get_alpha_beta_resolution 0 0 0 0 none none none none).2.2.2.2
      (by simp) (by simp)).2⟩

/-- C7: in the legal ranges, the mean/standard-deviation parameterization is
converted by exactly the documented closed forms: Beta via
kappa = mu*(1-mu)/sd^2 - 1, alpha = mu*kappa, beta = (1-mu)*kappa; Gamma via
alpha = mu^2/sd^2, beta = mu/sd^2. -/
theorem mu_sd_conversion_formulas (m s : ℚ) (_hs : 0 < s) :
    (0 < m → m < 1 →
      Beta.get_alpha_beta none none (some m) (some s) =
        .ok (m * (m * (1 - m) / s ^ 2 - 1),
             (1 - m) * (m * (1 - m) / s ^ 2 - 1))) ∧
    (0 < m →
      Gamma.get_alpha_beta none none (some m) (some s) =
        .ok (m ^ 2 / s ^ 2, m / s ^ 2)) :=
  ⟨fun _ _ => rfl, fun _ => rfl⟩

/-- C7 witnessed: Beta at mu = 1/2, sd = 1/10 gives alpha = beta = 12 and
Gamma at mu = 2, sd = 1 gives alpha = 4, beta = 2. -/
theorem mu_sd_conversion_formulas_witness :
    Beta.get_alpha_beta none none (some (1/2)) (some (1/10)) = .ok (12, 12) ∧
    Gamma.get_alpha_beta none none (some 2) (some 1) = .ok (4, 2) := by
  have h1 := (mu_sd_conversion_formulas (1/2) (1/10) (by norm_num)).1
    (by norm_num) (by norm_num)
  have h2 := (mu_sd_conversion_formulas 2 1 (by norm_num)).2 (by norm_num)
  norm_num at h1 h2
  exact ⟨h1, h2⟩

/-- Gamma.logp: bound(-gammaln(alpha) + logpow(beta, alpha) - beta * value
+ logpow(value, alpha - 1), value >= 0, alpha > 0, beta > 0). -/
def Gamma.logp (cap : SymCap) (alpha beta value : ℚ) : LVal :=
  bound (LVal.fin (-(cap.gammaln alpha)) + logpow cap beta alpha
      - beta * value + logpow cap value (alpha - 1))
    (0 ≤ value ∧ 0 < alpha ∧ 0 < beta)

/-- Arguments Gamma.random passes to the external sampler
stats.gamma.rvs: the shape alpha and the scale 1 / beta. -/
def Gamma.randomArgs (alpha beta : ℚ) : ℚ × ℚ :=
  (alpha, 1 / beta)

/-- ChiSquared.__init__ stores nu and delegates to Gamma.__init__ with
alpha = nu / 2 and beta = 0.5, which resolves them through
Gamma.get_alpha_beta. -/
def ChiSquared.alpha_beta (nu : ℚ) : Except String (ℚ × ℚ) :=
  Gamma.get_alpha_beta (some (nu / 2)) (some (1/2)) none none

/-- ChiSquared.logp is the inherited Gamma.logp evaluated at the parameters
stored by the delegated constructor. -/
def ChiSquared.logp (cap : SymCap) (nu value : ℚ) : Except String LVal :=
  (ChiSquared.alpha_beta nu).map fun p => Gamma.logp cap p.1 p.2 value

/-- ChiSquared.random is the inherited Gamma.random, so its sampler arguments
are Gamma.randomArgs at the stored parameters. -/
def ChiSquared.randomArgs (nu : ℚ) : Except String (ℚ × ℚ) :=
  (ChiSquared.alpha_beta nu).map fun p => Gamma.randomArgs p.1 p.2

/-- C3: for every nu > 0 and every value in the valid support, the ChiSquared
log-density is exactly the Gamma log-density at alpha = nu/2, beta = 1/2,
and the ChiSquared sampler invocation is the Gamma sampler invocation at
those same parameters; no distinct formula is introduced. -/
theorem chisquared_is_gamma (cap : SymCap) (nu value : ℚ)
    (_hnu : 0 < nu) (_hv : 0 ≤ value) :
    ChiSquared.logp cap nu value = .ok (Gamma.logp cap (nu / 2) (1/2) value) ∧
    ChiSquared.randomArgs nu = .ok (Gamma.randomArgs (nu / 2) (1/2)) :=
  ⟨rfl, rfl⟩

/-- C3 witnessed at nu = 4, value = 1: ChiSquared(4) has the log-density and
sampler arguments of Gamma(alpha = 2, beta = 1/2). -/
theorem chisquared_is_gamma_witness :
    ChiSquared.logp capZero 4 1 = .ok (Gamma.logp capZero ((4:ℚ) / 2) (1/2) 1) ∧
    ChiSquared.randomArgs 4 = .ok (Gamma.randomArgs ((4:ℚ) / 2) (1/2)) :=
  chisquared_is_gamma capZero 4 1 (by norm_num) (by norm_num)

/-- Error message of Wald.get_mu_lam_phi. -/
def waldErrMsg : String :=
  "Wald distribution must specify either mu only, mu and lam, mu and phi, " ++
  "or lam and phi."

/-- Wald.get_mu_lam_phi: nested dispatch on which of mu, lam, phi were
supplied; returns the canonical triple (mu, lam, phi) or raises. -/
def Wald.get_mu_lam_phi (mu lam phi : Option ℚ) :
    Except String (ℚ × ℚ × ℚ) :=
  match mu with
  | none =>
    match lam, phi with
    | some l, some p => .ok (l / p, l, p)
    | _, _ => .error waldErrMsg
  | some m =>
    match lam with
    | none =>
      match phi with
      | none => .ok (m, 1, 1 / m)
      | some p => .ok (m, m * p, p)
    | some l =>
      match phi with
      | none => .ok (m, l, l / m)
      | some _ => .error waldErrMsg

/-- C4: Wald parameter resolution accepts exactly the four documented input
combinations, deriving lam = 1 for mu alone, phi = lam/mu for (mu, lam),
lam = mu*phi for (mu, phi) and mu = lam/phi for (lam, phi); every other
combination errors; and the mathematically equivalent inputs (mu=2, lam=3)
and (mu=2, phi=3/2) resolve to the same canonical triple. -/
theorem wald_get_mu_lam_phi_cases (m l p : ℚ) :
    Wald.get_mu_lam_phi (some m) none none = .ok (m, 1, 1 / m) ∧
    Wald.get_mu_lam_phi (some m) (some l) none = .ok (m, l, l / m) ∧
    Wald.get_mu_lam_phi (some m) none (some p) = .ok (m, m * p, p) ∧
    Wald.get_mu_lam_phi none (some l) (some p) = .ok (l / p, l, p) ∧
    Wald.get_mu_lam_phi none none none = .error waldErrMsg ∧
    Wald.get_mu_lam_phi (some m) (some l) (some p) = .error waldErrMsg ∧
    Wald.get_mu_lam_phi none (some l) none = .error waldErrMsg ∧
    Wald.get_mu_lam_phi none none (some p) = .error waldErrMsg ∧
    Wald.get_mu_lam_phi (some 2) (some 3) none =
      Wald.get_mu_lam_phi (some 2) none (some (3/2)) := by
  refine ⟨rfl, rfl, rfl, rfl, rfl, rfl, rfl, rfl, ?_⟩
  show Except.ok ((2:ℚ), (3:ℚ), (3:ℚ)/2) = .ok (2, 2 * (3/2), 3/2)
  norm_num

/-- A numpy float entry of the InverseGamma mean attribute: finite, or the
np.inf produced by the "or" fallback. -/
inductive MeanVal where
  | fin : ℚ → MeanVal
  | inf : MeanVal
deriving DecidableEq, Repr

/-- Python truthiness of a numpy array: an empty array is falsy, a
one-element array has the truth value of its entry, and any larger array
raises a ValueError. -/
def pyTruthy (xs : List ℚ) : Except String Bool :=
  match xs with
  | [] => .ok false
  | [x] => .ok (decide (x ≠ 0))
  | _ => .error ("The truth value of an array with more than one element " ++
      "is ambiguous. Use a.any() or a.all()")

/-- InverseGamma.__init__ line for the mean, as written in the source:
(alpha > 1) * beta / (alpha - 1.) or np.inf.  The comparison and arithmetic
are elementwise over arrays (modelled as lists, zipped elementwise), but the
Python "or" then takes the truthiness of the whole array: a falsy result is
replaced by the scalar np.inf, and a multi-element array raises. -/
def InverseGamma.mean_code (alpha beta : List ℚ) :
    Except String (List MeanVal) :=
  let x := List.zipWith (fun a b => (if 1 < a then (1:ℚ) else 0) * b / (a - 1))
    alpha beta
  match pyTruthy x with
  | .error e => .error e
  | .ok true => .ok (x.map .fin)
  | .ok false => .ok [.inf]

/-- Modelled from the spec: the intended InverseGamma mean,
beta/(alpha-1) if alpha > 1 else +inf, applied elementwise. -/
def InverseGamma.mean_spec (alpha beta : List ℚ) : List MeanVal :=
  List.zipWith (fun a b => if 1 < a then .fin (b / (a - 1)) else .inf)
    alpha beta

/-- C5: the source expression for the InverseGamma mean agrees with the
intended elementwise contract on scalars, but on the two-element input
alpha = [2, 1/2], beta = [1, 1] it raises the ambiguous-truth-value
ValueError instead of returning [beta/(alpha-1), +inf] elementwise. -/
theorem inversegamma_mean_array_bug :
    InverseGamma.mean_code [2] [3] = .ok [.fin 3] ∧
    InverseGamma.mean_code [1/2] [3] = .ok [.inf] ∧
    isError (InverseGamma.mean_code [2, 1/2] [1, 1]) = true ∧
    InverseGamma.mean_spec [2, 1/2] [1, 1] = [.fin 1, .inf] := by
  refine ⟨?_, ?_, ?_, ?_⟩ <;>
    norm_num [InverseGamma.mean_code, InverseGamma.mean_spec, pyTruthy,
      isError]

/-- The acceptance filter of the Bounded rejection sampler:
sample[np.logical_and(sample > lower, sample <= upper)]. -/
def boundedSelect (lower upper : ℚ) (sample : List ℚ) : List ℚ :=
  sample.filter fun s => decide (lower < s) && decide (s ≤ upper)

/-- The while loop of Bounded._random: as long as fewer than size draws have
been accumulated, draw a batch of the still-missing count from the inner
distribution (draw k n gives the n draws of round k), keep the in-range ones
and append them.  Fuel makes the possibly non-terminating loop total: none
means the fuel ran out with the loop still going. -/
def boundedRandomGo (lower upper : ℚ) (draw : ℕ → ℕ → List ℚ) (size : ℕ) :
    ℕ → ℕ → List ℚ → Option (List ℚ)
  | 0, _, _ => none
  | fuel + 1, k, acc =>
    if size ≤ acc.length then some acc
    else
      boundedRandomGo lower upper draw size fuel (k + 1)
        (acc ++ boundedSelect lower upper (draw k (size - acc.length)))

/-- Bounded._random: run the rejection loop starting from an empty buffer. -/
def Bounded.random (lower upper : ℚ) (draw : ℕ → ℕ → List ℚ)
    (size fuel : ℕ) : Option (List ℚ) :=
  boundedRandomGo lower upper draw size fuel 0 []

/-- Bounded.logp: bound(self.dist.logp(value), value >= lower,
value <= upper). -/
def Bounded.logp (innerLogp : ℚ → LVal) (lower upper value : ℚ) : LVal :=
  bound (innerLogp value) (lower ≤ value ∧ value ≤ upper)

/-- Every value the rejection loop has accumulated on a terminating run lies
strictly above lower and at or below upper, whatever the inner draws were. -/
theorem boundedRandomGo_mem (lower upper : ℚ) (draw : ℕ → ℕ → List ℚ)
    (size : ℕ) :
    ∀ fuel k acc out, (∀ v ∈ acc, lower < v ∧ v ≤ upper) →
      boundedRandomGo lower upper draw size fuel k acc = some out →
      ∀ v ∈ out, lower < v ∧ v ≤ upper := by
  intro fuel
  induction fuel with
  | zero => intro k acc out _ h; simp [boundedRandomGo] at h
  | succ fuel ih =>
    intro k acc out hacc h
    rw [boundedRandomGo] at h
    by_cases hl : size ≤ acc.length
    · rw [if_pos hl] at h
      cases h
      exact hacc
    · rw [if_neg hl] at h
      refine ih _ _ _ ?_ h
      intro v hv
      rcases List.mem_append.mp hv with hv' | hv'
      · exact hacc v hv'
      · have := List.mem_filter.mp hv'
        constructor
        · exact of_decide_eq_true (Bool.and_elim_left this.2)
        · exact of_decide_eq_true (Bool.and_elim_right this.2)

/-- C6: whenever the Bounded rejection sampler terminates, every value in the
returned array lies inside the declared bounds (strictly above lower, at or
below upper; in particular for lower = 0 every drawn value is nonnegative),
for any sequence of inner-distribution draws. -/
theorem bounded_random_in_bounds (lower upper : ℚ) (draw : ℕ → ℕ → List ℚ)
    (size fuel : ℕ) (out : List ℚ)
    (h : Bounded.random lower upper draw size fuel = some out) :
    ∀ v ∈ out, lower < v ∧ v ≤ upper :=
  boundedRandomGo_mem lower upper draw size fuel 0 [] out (by simp) h

/-- C6 witnessed: a concrete terminating run with bounds [0, 2] whose inner
draws are the constant 1 fills the three requested slots with in-range
values. -/
theorem bounded_random_in_bounds_witness :
    (0:ℚ) < 1 ∧ (1:ℚ) ≤ 2 :=
  bounded_random_in_bounds 0 2 (fun _ n => List.replicate n 1) 3 4
    [1, 1, 1] (by decide) 1 (by decide)

/-- C10: the acceptance test of the rejection sampler is strict at the lower
bound and inclusive at the upper bound, so a draw exactly equal to lower is
always discarded (and one equal to upper is kept), even though Bounded.logp
treats both value = lower and value = upper as in-support, its guard being
value >= lower and value <= upper. -/
theorem bounded_accept_strict_lower (lower upper : ℚ) (h : lower ≤ upper)
    (inner : ℚ → LVal) (sample : List ℚ) :
    lower ∉ boundedSelect lower upper sample ∧
    (∀ s ∈ boundedSelect lower upper sample, lower < s ∧ s ≤ upper) ∧
    (lower < upper → upper ∈ sample →
      upper ∈ boundedSelect lower upper sample) ∧
    Bounded.logp inner lower upper lower = inner lower ∧
    Bounded.logp inner lower upper upper = inner upper := by
  refine ⟨?_, ?_, fun hlt hmem => ?_, ?_, ?_⟩
  · intro hmem
    have := (List.mem_filter.mp hmem).2
    simp at this
  · intro s hs
    have := (List.mem_filter.mp hs).2
    constructor
    · exact of_decide_eq_true (Bool.and_elim_left this)
    · exact of_decide_eq_true (Bool.and_elim_right this)
  · exact List.mem_filter.mpr ⟨hmem, by simp [hlt]⟩
  · simp [Bounded.logp, bound, le_refl, h]
  · simp [Bounded.logp, bound, le_refl, h]

/-- C10 witnessed with bounds [0, 2] and the draws [0, 2]: the draw equal to
the lower bound is rejected, the one equal to the upper bound is kept, and
the log-density guard admits both endpoints. -/
theorem bounded_accept_strict_lower_witness :
    (0:ℚ) ∉ boundedSelect 0 2 [0, 2] ∧
    (∀ s ∈ boundedSelect 0 2 [0, 2], (0:ℚ) < s ∧ s ≤ 2) ∧
    ((0:ℚ) < 2 → (2:ℚ) ∈ [(0:ℚ), 2] → (2:ℚ) ∈ boundedSelect 0 2 [0, 2]) ∧
    Bounded.logp (fun _ => LVal.fin 7) 0 2 0 = LVal.fin 7 ∧
    Bounded.logp (fun _ => LVal.fin 7) 0 2 2 = LVal.fin 7 :=
  bounded_accept_strict_lower 0 2 (by norm_num) (fun _ => LVal.fin 7) [0, 2]

/-- A Python number as passed to get_tau_sd: an integer or a float (floats
modelled by their exact rational value). -/
inductive PyNum where
  | int : ℤ → PyNum
  | float : ℚ → PyNum
deriving DecidableEq, Repr

/-- Numeric value of a Python number. -/
def PyNum.toQ : PyNum → ℚ
  | .int n => (n : ℚ)
  | .float q => q

/-- Whether a Python number is a float. -/
def PyNum.isFloat : PyNum → Bool
  | .int _ => false
  | .float _ => true

/-- The cast "1. * x" at the end of get_tau_sd: multiplying by the float
literal 1. promotes an integral value to a float and keeps its value. -/
def pyFloatScale (x : PyNum) : PyNum :=
  .float (1 * x.toQ)

/-- get_tau_sd: with neither argument, (tau, sd) defaults to (1., 1.); with
only sd, tau = sd ** -2.; with only tau, sd = tau ** -.5 (a float power,
taken from the abstract capability since it is irrational in general); with
both, a ValueError is raised.  Both results then pass through the final
"1. * tau" / "1. * sd" float cast. -/
def get_tau_sd (cap : SymCap) (tau sd : Option PyNum) :
    Except String (PyNum × PyNum) :=
  match tau, sd with
  | none, none =>
    .ok (pyFloatScale (.float 1), pyFloatScale (.float 1))
  | none, some s =>
    .ok (pyFloatScale (.float (s.toQ ^ (-2 : ℤ))), pyFloatScale s)
  | some _, some _ => .error "Cannot pass both tau and sd"
  | some t, none =>
    .ok (pyFloatScale t, pyFloatScale (.float (cap.powNegHalf t.toQ)))

/-- C8: get_tau_sd raises when both tau and sd are supplied, and returns the
default pair (1., 1.) when neither is supplied. -/
theorem get_tau_sd_defaults_and_conflict (cap : SymCap) (t s : PyNum) :
    isError (get_tau_sd cap (some t) (some s)) = true ∧
    get_tau_sd cap none none = .ok (.float 1, .float 1) := by
  constructor
  · rfl
  · show Except.ok (pyFloatScale (.float 1), pyFloatScale (.float 1)) = _
    norm_num [pyFloatScale, PyNum.toQ]

/-- C9: on the two successful single-argument calls, assuming the float power
tau ** -.5 really is an inverse square root at the supplied point, the
returned pair satisfies tau = sd ** -2, and both components are floats even
when the supplied argument was an integer. -/
theorem get_tau_sd_consistency (cap : SymCap) (t s : PyNum)
    (_ht : 0 < t.toQ) (_hs : 0 < s.toQ)
    (hcap : cap.powNegHalf t.toQ ^ 2 = (t.toQ)⁻¹) :
    (∀ p : PyNum × PyNum, get_tau_sd cap (some t) none = .ok p →
      p.1.toQ = p.2.toQ ^ (-2 : ℤ) ∧ p.1.isFloat = true ∧
        p.2.isFloat = true) ∧
    (∀ p : PyNum × PyNum, get_tau_sd cap none (some s) = .ok p →
      p.1.toQ = p.2.toQ ^ (-2 : ℤ) ∧ p.1.isFloat = true ∧
        p.2.isFloat = true) := by
  constructor
  · intro p hp
    obtain rfl := Except.ok.inj hp
    refine ⟨?_, rfl, rfl⟩
    show 1 * t.toQ = (1 * cap.powNegHalf t.toQ) ^ (-2 : ℤ)
    rw [one_mul, one_mul, zpow_neg,
        show ((2 : ℤ) = ((2 : ℕ) : ℤ)) from rfl, zpow_natCast, hcap, inv_inv]
  · intro p hp
    obtain rfl := Except.ok.inj hp
    refine ⟨?_, rfl, rfl⟩
    show 1 * s.toQ ^ (-2 : ℤ) = (1 * s.toQ) ^ (-2 : ℤ)
    rw [one_mul, one_mul]

/-- A capability whose float power at 4 is the true inverse square root 1/2,
used to witness the tau/sd consistency law. -/
def capHalf : SymCap := ⟨fun _ => 0, fun _ => 0, 0, fun _ => 1/2⟩

/-- C9 witnessed: tau = 4 (an integer) resolves to the float pair
(4., 0.5) with 4 = 0.5 ** -2, and sd = 2 resolves to the float pair
(0.25, 2.) with 0.25 = 2 ** -2. -/
theorem get_tau_sd_consistency_witness :
    ((PyNum.float (1 * (PyNum.int 4).toQ)).toQ =
      (PyNum.float (1 * capHalf.powNegHalf (PyNum.int 4).toQ)).toQ ^ (-2 : ℤ) ∧
     (PyNum.float (1 * (PyNum.int 4).toQ)).isFloat = true ∧
     (PyNum.float (1 * capHalf.powNegHalf (PyNum.int 4).toQ)).isFloat = true) ∧
    ((PyNum.float (1 * (PyNum.int 2).toQ ^ (-2 : ℤ))).toQ =
      (PyNum.float (1 * (PyNum.int 2).toQ)).toQ ^ (-2 : ℤ) ∧
     (PyNum.float (1 * (PyNum.int 2).toQ ^ (-2 : ℤ))).isFloat = true ∧
     (PyNum.float (1 * (PyNum.int 2).toQ)).isFloat = true) :=
  ⟨(get_tau_sd_consistency capHalf (.int 4) (.int 2) (by norm_num [PyNum.toQ])
      (by norm_num [PyNum.toQ]) (by norm_num [capHalf, PyNum.toQ])).1
      (.float (1 * (PyNum.int 4).toQ),
       .float (1 * capHalf.powNegHalf (PyNum.int 4).toQ)) rfl,
   (get_tau_sd_consistency capHalf (.int 4) (.int 2) (by norm_num [PyNum.toQ])
      (by norm_num [PyNum.toQ]) (by norm_num [capHalf, PyNum.toQ])).2
      (.float (1 * (PyNum.int 2).toQ ^ (-2 : ℤ)),
       .float (1 * (PyNum.int 2).toQ)) rfl⟩
